import Mathlib

/-!
Shallow embedding of the websocket-tunnel core (relay and agent) and proofs
about its registry, pending-request table, mapping resolver, header
sanitizers, agent HTTP egress and frame handlers.

Conventions of the embedding:
- JavaScript Map objects become association lists in insertion order
  (Map keys are unique; Map.delete is modelled as a filter on the key).
- Wall-clock instants (Date.now) are explicit Nat parameters.
- Side effects on sockets and on request waiters (resolve and reject
  callbacks, ws.send, ws.close) become an explicit list of Effect values
  emitted by each operation, in program order.
- Strings keep JavaScript semantics on the ASCII data the tunnel uses:
  toLowerCase, toUpperCase, startsWith, substring and slice become the
  str-prefixed helpers below, defined on the character lists so that
  concrete instances reduce inside the kernel.
-/

namespace WsTunnel

/-- JavaScript String.prototype.startsWith on the ASCII strings the tunnel
handles, as a structurally recursive check on the character lists so that
concrete instances evaluate inside the kernel. -/
def strStartsWith (s p : String) : Bool :=
  p.data.isPrefixOf s.data

/-- JavaScript String.prototype.substring(n) to the end: drop the first n
characters. -/
def strDrop (s : String) (n : Nat) : String :=
  String.mk (s.data.drop n)

/-- JavaScript String.prototype.slice(0, n): take the first n
characters. -/
def strTake (s : String) (n : Nat) : String :=
  String.mk (s.data.take n)

/-- JavaScript String.prototype.length on ASCII data. -/
def strLen (s : String) : Nat :=
  s.data.length

/-- JavaScript String.prototype.toLowerCase on ASCII data. -/
def strToLower (s : String) : String :=
  String.mk (s.data.map Char.toLower)

/-- JavaScript String.prototype.toUpperCase on ASCII data. -/
def strToUpper (s : String) : String :=
  String.mk (s.data.map Char.toUpper)

/-- Frame kinds, from the TunnelMessage.type union in src/shared/types.ts. -/
inductive MessageKind where
  | register
  | request
  | response
  | error
  | heartbeat
  | pong
deriving DecidableEq

/-- One routing-table entry of an agent, from ClientMapping in
src/shared/types.ts. The source field named after the path fragment is
called pfx here because its source name is a reserved word in Lean. -/
structure ClientMapping where
  pfx : String
  target : String
  description : String
deriving DecidableEq

/-- HttpRequestPayload from src/shared/types.ts. Header and query maps are
association lists of strings. -/
structure HttpRequestPayload where
  method : String
  path : String
  headers : List (String × String)
  body : Option String
  query : List (String × String)
  targetMapping : Option String
deriving DecidableEq

/-- HttpResponsePayload from src/shared/types.ts. -/
structure HttpResponsePayload where
  statusCode : Nat
  headers : List (String × String)
  body : String
  duration : Option Nat
  mapping : Option String
deriving DecidableEq

/-- ErrorPayload from src/shared/types.ts. -/
structure ErrorPayload where
  message : String
  code : Option String
deriving DecidableEq

/-- The kind-dependent payload of a frame. The source types it as any;
the shapes actually constructed by the two processes are the ones below. -/
inductive MessagePayload where
  | empty
  | registerReq (name : Option String) (mappings : List ClientMapping)
  | registerConfirm (confirmed : Bool)
  | request (p : HttpRequestPayload)
  | response (p : HttpResponsePayload)
  | error (p : ErrorPayload)
deriving DecidableEq

/-- TunnelMessage from src/shared/types.ts. -/
structure TunnelMessage where
  id : String
  type : MessageKind
  timestamp : Nat
  clientId : Option String
  payload : MessagePayload
deriving DecidableEq

/-- A registered agent record, from RegisteredClient in
src/server/client-manager.ts (the variant that also stores mappings).
The live socket is identified by an opaque Nat handle. -/
structure RegisteredClient where
  id : String
  name : String
  connected : Bool
  lastHeartbeat : Nat
  requestCount : Nat
  mappings : List ClientMapping
  ws : Nat
deriving DecidableEq

/-- A pending-request record, from PendingRequest in
src/server/client-manager.ts. The resolve and reject callbacks and the
timer are modelled as Effect values; only the data fields remain here. -/
structure PendingRequest where
  id : String
  timestamp : Nat
deriving DecidableEq

/-- The mutable state of ClientManager: the two Maps, as association lists
in insertion order. -/
structure ManagerState where
  clients : List (String × RegisteredClient)
  pendingRequests : List (String × PendingRequest)
deriving DecidableEq

/-- Observable actions of the relay: invoking the reject callback of a
pending request, invoking its resolve callback, calling close on a client
socket, and sending a frame on a socket. The server source never calls
close on an individual client socket, so no operation below ever emits
closeLink; the constructor exists so that absence is expressible. -/
inductive Effect where
  | rejected (requestId : String) (error : String)
  | resolved (requestId : String) (response : HttpResponsePayload)
  | closeLink (ws : Nat)
  | send (ws : Nat) (frame : TunnelMessage)
deriving DecidableEq

/-- Map.set: replace the value at the key in place (Map keeps insertion
order on overwrite) or append a new entry. -/
def mapSet (k : String) (v : α) : List (String × α) → List (String × α)
  | [] => [(k, v)]
  | (k', v') :: rest =>
    if k' == k then (k, v) :: rest else (k', v') :: mapSet k v rest

/-- Map.delete: remove the entry at the key. Map keys are unique, so a
filter on the key is the same operation. -/
def mapErase (k : String) (l : List (String × α)) : List (String × α) :=
  l.filter (fun kv => kv.1 != k)

/-- ClientManager.rejectRequest (src/server/client-manager.ts lines
181 to 188): look up the pending entry, and if present clear its timer,
delete it and invoke its reject callback; a missing entry is a no-op. -/
def rejectRequest (requestId : String) (error : String) (s : ManagerState) :
    ManagerState × List Effect :=
  match s.pendingRequests.lookup requestId with
  | some _ =>
    ({ s with pendingRequests := mapErase requestId s.pendingRequests },
     [Effect.rejected requestId error])
  | none => (s, [])

/-- ClientManager.resolveRequest (src/server/client-manager.ts lines
169 to 179): look up the pending entry, and if present clear its timer,
delete it, set response.duration to now minus the recorded timestamp and
invoke its resolve callback; a missing entry is a no-op. -/
def resolveRequest (requestId : String) (response : HttpResponsePayload)
    (now : Nat) (s : ManagerState) : ManagerState × List Effect :=
  match s.pendingRequests.lookup requestId with
  | some req =>
    ({ s with pendingRequests := mapErase requestId s.pendingRequests },
     [Effect.resolved requestId
        { response with duration := some (now - req.timestamp) }])
  | none => (s, [])

/-- ClientManager.rejectRequestsForClient (src/server/client-manager.ts
lines 190 to 196): the source takes a snapshot of every pending request id
and rejects each with a Client disconnected error. The clientId argument
is ignored by the source body, which is why it is unused here as well. -/
def rejectRequestsForClient (_clientId : String) (s : ManagerState) :
    ManagerState × List Effect :=
  let pendingIds := s.pendingRequests.map Prod.fst
  pendingIds.foldl
    (fun acc requestId =>
      let r := rejectRequest requestId "Client disconnected" acc.1
      (r.1, acc.2 ++ r.2))
    (s, [])

/-- ClientManager.unregisterClient (src/server/client-manager.ts lines
62 to 74): scan the client Map in insertion order for the record holding
this socket; if found, mark it disconnected, delete it, reject the pending
requests, and stop at the first match. The connected := false write lands
on the record being deleted and is not observable afterwards. -/
def unregisterClient (ws : Nat) (s : ManagerState) : ManagerState × List Effect :=
  match s.clients.find? (fun kv => kv.2.ws == ws) with
  | some (clientId, _) =>
    rejectRequestsForClient clientId
      { s with clients := mapErase clientId s.clients }
  | none => (s, [])

/-- Default display name, options.name with the a-falsy-name fallback of
the source: Client- followed by clientId.slice(0, 8). -/
def defaultClientName (clientId : String) (name : Option String) : String :=
  match name with
  | some n => if n == "" then "Client-" ++ strTake clientId 8 else n
  | none => "Client-" ++ strTake clientId 8

/-- ClientManager.registerClient (src/server/client-manager.ts lines
22 to 60): if a record for the id exists, unregister the socket it holds;
then store a fresh record that is connected, stamped with now and with a
zero request counter. Returns the new record and the emitted effects. -/
def registerClient (clientId : String) (ws : Nat) (name : Option String)
    (mappings : List ClientMapping) (now : Nat) (s : ManagerState) :
    ManagerState × RegisteredClient × List Effect :=
  let cleanup :=
    match s.clients.lookup clientId with
    | some old => unregisterClient old.ws s
    | none => (s, [])
  let client : RegisteredClient :=
    { id := clientId
      name := defaultClientName clientId name
      connected := true
      lastHeartbeat := now
      requestCount := 0
      mappings := mappings
      ws := ws }
  ({ cleanup.1 with clients := mapSet clientId client cleanup.1.clients },
   client, cleanup.2)

/-- ClientManager.addPendingRequest (src/server/client-manager.ts lines
145 to 167): bump the request counter of the target client if it exists,
then store the pending record keyed by the request id. The timeout timer
is modelled elsewhere as a later rejectRequest call. -/
def addPendingRequest (requestId : String) (clientId : String) (now : Nat)
    (s : ManagerState) : ManagerState :=
  let s1 :=
    match s.clients.lookup clientId with
    | some c =>
      { s with clients :=
          mapSet clientId { c with requestCount := c.requestCount + 1 } s.clients }
    | none => s
  { s1 with pendingRequests :=
      mapSet requestId { id := requestId, timestamp := now } s1.pendingRequests }

/-- ClientManager.updateHeartbeat (src/server/client-manager.ts lines
118 to 123). -/
def updateHeartbeat (clientId : String) (now : Nat) (s : ManagerState) :
    ManagerState :=
  match s.clients.lookup clientId with
  | some c =>
    { s with clients :=
        mapSet clientId { c with lastHeartbeat := now } s.clients }
  | none => s

/-- The cast "message.payload as HttpResponsePayload" performed by the
server response handler: a response payload passes through, anything else
yields the record a field-by-field undefined read would produce. -/
def asResponsePayload : MessagePayload → HttpResponsePayload
  | MessagePayload.response p => p
  | _ => { statusCode := 0, headers := [], body := "", duration := none, mapping := none }

/-- The error message extraction of the server error handler,
message.payload?.message with the Client error falsy fallback. -/
def asErrorMessage : MessagePayload → String
  | MessagePayload.error e => if e.message == "" then "Client error" else e.message
  | _ => "Client error"

/-- TunnelWebSocketServer.handleResponse (src/server/websocket.ts lines
167 to 170): resolve the pending entry keyed by the frame id with the
frame payload. The socket the frame arrived on is not an argument. -/
def handleResponse (message : TunnelMessage) (now : Nat) (s : ManagerState) :
    ManagerState × List Effect :=
  resolveRequest message.id (asResponsePayload message.payload) now s

/-- TunnelWebSocketServer.handleError (src/server/websocket.ts lines
172 to 175). -/
def handleError (message : TunnelMessage) (s : ManagerState) :
    ManagerState × List Effect :=
  rejectRequest message.id (asErrorMessage message.payload) s

/-- TunnelWebSocketServer.handleHeartbeat (src/server/websocket.ts lines
177 to 188): update the heartbeat stamp when the frame has a truthy
clientId, then answer on the same socket with a pong frame echoing the
frame id. -/
def serverHandleHeartbeat (ws : Nat) (message : TunnelMessage) (now : Nat)
    (s : ManagerState) : ManagerState × List Effect :=
  let s1 :=
    match message.clientId with
    | some cid => if cid == "" then s else updateHeartbeat cid now s
    | none => s
  (s1,
   [Effect.send ws
      { id := message.id, type := MessageKind.pong, timestamp := now,
        clientId := none, payload := MessagePayload.empty }])

/-- Name field of a register payload, message.payload?.name. -/
def payloadName : MessagePayload → Option String
  | MessagePayload.registerReq n _ => n
  | _ => none

/-- Mappings field of a register payload with the source empty-list
fallback, message.payload?.mappings or []. -/
def payloadMappings : MessagePayload → List ClientMapping
  | MessagePayload.registerReq _ m => m
  | _ => []

/-- TunnelWebSocketServer.handleRegister (src/server/websocket.ts lines
79 to 102): take the frame clientId or a fresh uuid, default the name,
register, then send a register frame confirming with the canonical id.
The two uuidv4 calls are the fresh and freshMsgId parameters. -/
def handleRegister (ws : Nat) (message : TunnelMessage)
    (fresh freshMsgId : String) (now : Nat) (s : ManagerState) :
    ManagerState × List Effect :=
  let clientId :=
    match message.clientId with
    | some cid => if cid == "" then fresh else cid
    | none => fresh
  let clientName :=
    match payloadName message.payload with
    | some n => if n == "" then "Unknown Client" else n
    | none => "Unknown Client"
  let mappings := payloadMappings message.payload
  let r := registerClient clientId ws (some clientName) mappings now s
  (r.1,
   r.2.2 ++
     [Effect.send ws
        { id := freshMsgId, type := MessageKind.register, timestamp := now,
          clientId := some r.2.1.id,
          payload := MessagePayload.registerConfirm true }])

/-- TunnelWebSocketServer.handleMessage (src/server/websocket.ts lines
56 to 77): dispatch on the frame kind; request and pong frames only log a
warning on the server and change nothing. -/
def serverHandleMessage (ws : Nat) (message : TunnelMessage)
    (fresh freshMsgId : String) (now : Nat) (s : ManagerState) :
    ManagerState × List Effect :=
  match message.type with
  | MessageKind.register => handleRegister ws message fresh freshMsgId now s
  | MessageKind.response => handleResponse message now s
  | MessageKind.error => handleError message s
  | MessageKind.heartbeat => serverHandleHeartbeat ws message now s
  | _ => (s, [])

/-- The header deny list of HttpProxyHandler.sanitizeHeaders
(src/server/http-proxy.ts lines 484 to 494). -/
def serverSkipHeaders : List String :=
  ["host", "connection", "upgrade", "sec-websocket-key",
   "sec-websocket-version", "sec-websocket-extensions",
   "x-forwarded-for", "x-forwarded-proto", "x-forwarded-host"]

/-- HttpProxyHandler.sanitizeHeaders (src/server/http-proxy.ts lines
480 to 504): keep each entry, under its original key, unless the
lower-cased key is on the deny list. The source value is a defined string
here by typing, so the undefined check and the array join never fire. -/
def serverSanitizeHeaders (headers : List (String × String)) :
    List (String × String) :=
  headers.filter (fun kv => ! serverSkipHeaders.contains (strToLower kv.1))

/-- The request frame payload built by HttpProxyHandler.handleRequest
(src/server/http-proxy.ts lines 385 to 392) before dispatch to the agent. -/
def buildRequestPayload (method path : String)
    (headers : List (String × String)) (body : Option String)
    (query : List (String × String)) (targetMapping : Option String) :
    HttpRequestPayload :=
  { method := method
    path := path
    headers := serverSanitizeHeaders headers
    body := body
    query := query
    targetMapping := targetMapping }

/-- Leading-slash strip shared by findBestMapping and stripMappingPrefix:
path.startsWith("/") ? path.substring(1) : path. -/
def cleanLeadingSlash (path : String) : String :=
  if strStartsWith path "/" then strDrop path 1 else path

/-- The filter condition of HttpProxyHandler.findBestMapping
(src/server/http-proxy.ts line 322): the cleaned path starts with the
mapping pfx followed by a slash, or equals it, or merely starts with it.
The last disjunct subsumes the other two and requires no segment
boundary. -/
def matchesMapping (cleanPath : String) (m : ClientMapping) : Bool :=
  strStartsWith cleanPath (m.pfx ++ "/") || cleanPath == m.pfx ||
    strStartsWith cleanPath m.pfx

/-- One step of a stable insertion sort by descending pfx length,
modelling the stable Array.prototype.sort with comparator
b.pfx.length - a.pfx.length: an element is inserted after every element
of length greater than or equal to its own. -/
def insertByLen (m : ClientMapping) : List ClientMapping → List ClientMapping
  | [] => [m]
  | x :: xs =>
    if strLen x.pfx < strLen m.pfx then m :: x :: xs
    else x :: insertByLen m xs

/-- Stable sort by descending pfx length. -/
def sortByLenDesc (l : List ClientMapping) : List ClientMapping :=
  l.foldl (fun acc m => insertByLen m acc) []

/-- HttpProxyHandler.findBestMapping (src/server/http-proxy.ts lines
316 to 326): filter the mappings by matchesMapping on the cleaned path,
sort by descending pfx length, take the first or null. -/
def findBestMapping (path : String) (mappings : List ClientMapping) :
    Option ClientMapping :=
  let cleanPath := cleanLeadingSlash path
  (sortByLenDesc (mappings.filter (fun m => matchesMapping cleanPath m))).head?

/-- HttpProxyHandler.stripMappingPrefix (src/server/http-proxy.ts lines
331 to 342): drop the pfx from the front of the cleaned path and put a
leading slash back, or return the path unchanged when it does not start
with the pfx. -/
def stripMappingPrefix (path : String) (pfx : String) : String :=
  let cleanPath := cleanLeadingSlash path
  if strStartsWith cleanPath pfx then
    let remaining := strDrop cleanPath (strLen pfx)
    if strStartsWith remaining "/" then remaining else "/" ++ remaining
  else path

/-- The mapping-resolution core of HttpProxyHandler.parseRoute
(src/server/http-proxy.ts lines 281 to 303) applied to the path remainder
after the client segment: pick the best mapping and strip its pfx, or
fall back to the default mapping with the path unchanged. -/
def resolveRoute (remainingPath : String) (mappings : List ClientMapping) :
    Option ClientMapping × String :=
  match findBestMapping remainingPath mappings with
  | some m => (some m, stripMappingPrefix remainingPath m.pfx)
  | none => (none, remainingPath)

/-- Modelled from the spec: the testable property on mapping resolution
says the chosen mapping is the longest prefix whose segment boundary
matches the path after the leading-slash strip. Segment-boundary matching
admits only equality or the pfx followed by a slash. This definition
exists solely to compare that wording with the source resolver. -/
def specMatchesMapping (cleanPath : String) (m : ClientMapping) : Bool :=
  cleanPath == m.pfx || strStartsWith cleanPath (m.pfx ++ "/")

/-- Modelled from the spec: mapping resolution with segment-boundary
matching, for comparison with resolveRoute. -/
def specResolveRoute (remainingPath : String) (mappings : List ClientMapping) :
    Option ClientMapping × String :=
  let cleanPath := cleanLeadingSlash remainingPath
  match (sortByLenDesc (mappings.filter
      (fun m => specMatchesMapping cleanPath m))).head? with
  | some m => (some m, stripMappingPrefix remainingPath m.pfx)
  | none => (none, remainingPath)

/-- Agent configuration, from ClientConfig in src/client/websocket.ts. -/
structure ClientConfig where
  clientId : String
  clientName : String
  reconnectInterval : Nat
  heartbeatInterval : Nat
  mappings : List ClientMapping
deriving DecidableEq

/-- TunnelWebSocketClient.handleHeartbeat (src/client/websocket.ts lines
180 to 188): the frame handed to sendMessage in reply to an inbound
heartbeat. It echoes the inbound id, carries the agent clientId, and its
type field is the string heartbeat, not pong. -/
def clientHandleHeartbeat (cfg : ClientConfig) (message : TunnelMessage)
    (now : Nat) : TunnelMessage :=
  { id := message.id
    type := MessageKind.heartbeat
    timestamp := now
    clientId := some cfg.clientId
    payload := MessagePayload.empty }

/-- TunnelWebSocketClient.sendMessage (src/client/websocket.ts lines
190 to 196): the frame goes out only while the socket is open. -/
def sendMessage (wsOpen : Bool) (message : TunnelMessage) :
    Option TunnelMessage :=
  if wsOpen then some message else none

/-- The full heartbeat reply path on the agent: handleHeartbeat composed
with the sendMessage gate. -/
def clientHeartbeatReply (cfg : ClientConfig) (wsOpen : Bool)
    (message : TunnelMessage) (now : Nat) : Option TunnelMessage :=
  sendMessage wsOpen (clientHandleHeartbeat cfg message now)

/-- The header deny list of HttpClient.sanitizeHeaders
(src/client/http-client.ts lines 400 to 406). -/
def clientSkipHeaders : List String :=
  ["host", "connection", "upgrade", "transfer-encoding", "content-length"]

/-- HttpClient.sanitizeHeaders (src/client/http-client.ts lines 396 to
416): same shape as the relay sanitizer, with the egress deny list. -/
def clientSanitizeHeaders (headers : List (String × String)) :
    List (String × String) :=
  headers.filter (fun kv => ! clientSkipHeaders.contains (strToLower kv.1))

/-- HttpClient.prepareBody (src/client/http-client.ts lines 383 to 394):
a falsy body (absent or the empty string) yields no body; then the method
is upper-cased and GET, HEAD and DELETE yield no body; every other method
forwards the body unchanged. -/
def prepareBody (payload : HttpRequestPayload) : Option String :=
  match payload.body with
  | none => none
  | some b =>
    if b == "" then none
    else
      let method := strToUpper payload.method
      if method == "GET" || method == "HEAD" || method == "DELETE" then none
      else some b

/-- Escape of one character inside a JSON string literal, as produced by
JSON.stringify on the failure detail (control characters do not occur in
the failure messages of the source, so only backslash and quote need
escaping). -/
def jsonEscapeChar (c : Char) : String :=
  if c == '\\' then "\\\\"
  else if c == '"' then "\\\""
  else String.singleton c

/-- JSON string literal for a message, quote-wrapped and escaped. -/
def jsonQuote (s : String) : String :=
  "\"" ++ String.join (s.data.map jsonEscapeChar) ++ "\""

/-- The body JSON.stringify produces in the catch branch of
HttpClient.makeRequest: keys in insertion order error, message, code. -/
def errorResponseBody (message : String) : String :=
  "\x7b\"error\":\"Service Unavailable\",\"message\":" ++ jsonQuote message ++
    ",\"code\":\"HTTP_REQUEST_FAILED\"\x7d"

/-- Outcome of the awaited fetch call inside HttpClient.makeRequest: a
settled HTTP response, or a raised error (timeout abort or transport
failure) carrying its message. -/
inductive FetchOutcome where
  | success (status : Nat) (headers : List (String × String)) (body : String)
  | failure (message : String)
deriving DecidableEq

/-- HttpClient.makeRequest (src/client/http-client.ts lines 314 to 358),
with the fetch outcome made explicit: a settled response is passed through
processResponse (status, flattened headers, body text); a raised error is
caught and turned into a synthesized 503 application/json response. The
function returns in both cases and never rethrows. -/
def makeRequest (_payload : HttpRequestPayload) (outcome : FetchOutcome) :
    HttpResponsePayload :=
  match outcome with
  | FetchOutcome.success status headers body =>
    { statusCode := status, headers := headers, body := body,
      duration := none, mapping := none }
  | FetchOutcome.failure message =>
    { statusCode := 503
      headers := [("content-type", "application/json")]
      body := errorResponseBody message
      duration := none
      mapping := none }

/-- The onRequest handler installed in src/client/index.ts lines 248 to
273: await makeRequest, then send a response frame with the measured
duration spliced in. Because makeRequest returns on egress failure
instead of throwing, this path is taken for failures too, and the catch
branch that would send an error frame is unreachable from makeRequest. -/
def agentAnswerFrame (requestId : String) (payload : HttpRequestPayload)
    (outcome : FetchOutcome) (now duration : Nat) : TunnelMessage :=
  let response := makeRequest payload outcome
  { id := requestId
    type := MessageKind.response
    timestamp := now
    clientId := none
    payload := MessagePayload.response { response with duration := some duration } }

/-- Well-formedness of reachable ClientManager states: both Maps have
unique keys, distinct records hold distinct sockets, and every stored
record is connected (records are stored only by registerClient, which
sets connected to true, and unregisterClient deletes them). -/
def WellFormed (s : ManagerState) : Prop :=
  (s.clients.map Prod.fst).Nodup ∧
  s.clients.Pairwise (fun a b => a.2.ws ≠ b.2.ws) ∧
  (s.pendingRequests.map Prod.fst).Nodup ∧
  (∀ kv ∈ s.clients, kv.2.connected = true)

instance (s : ManagerState) : Decidable (WellFormed s) := by
  unfold WellFormed
  infer_instance

/-- Concrete two-agent state used to exercise unregistration: agents a
(socket 1) and b (socket 2); pending request r1 was dispatched to a and
r2 to b (addPendingRequest received those client ids; the source stores
neither). -/
def twoAgentState : ManagerState :=
  { clients :=
      [("a", { id := "a", name := "A", connected := true, lastHeartbeat := 0,
               requestCount := 1, mappings := [], ws := 1 }),
       ("b", { id := "b", name := "B", connected := true, lastHeartbeat := 0,
               requestCount := 1, mappings := [], ws := 2 })]
    pendingRequests :=
      [("r1", { id := "r1", timestamp := 0 }),
       ("r2", { id := "r2", timestamp := 0 })] }

/-- Concrete one-agent state with one pending request, used to exercise
duplicate registration displacement. -/
def oneAgentState : ManagerState :=
  { clients :=
      [("a5", { id := "a5", name := "First", connected := true,
                lastHeartbeat := 3, requestCount := 1, mappings := [],
                ws := 1 })]
    pendingRequests := [("r1", { id := "r1", timestamp := 5 })] }

/-- The api mapping used in resolver examples. -/
def apiMapping : ClientMapping :=
  { pfx := "api", target := "http://localhost:5000", description := "api" }

/-- A request payload with the POST method and an empty-string body, used
to exercise prepareBody. -/
def emptyBodyPost : HttpRequestPayload :=
  { method := "POST", path := "/x", headers := [], body := some "",
    query := [], targetMapping := none }

/-- A GET-in-lower-case request payload carrying a body. -/
def getLowerPayload : HttpRequestPayload :=
  { method := "get", path := "/", headers := [], body := some "x",
    query := [], targetMapping := none }

/-- A POST request payload carrying a nonempty body. -/
def postBodyPayload : HttpRequestPayload :=
  { method := "POST", path := "/", headers := [], body := some "x",
    query := [], targetMapping := none }

/-- A concrete agent configuration for heartbeat examples. -/
def exampleConfig : ClientConfig :=
  { clientId := "c1", clientName := "C1", reconnectInterval := 5000,
    heartbeatInterval := 30000, mappings := [] }

/-- A concrete inbound heartbeat frame from the relay. -/
def heartbeatFrame : TunnelMessage :=
  { id := "h1", type := MessageKind.heartbeat, timestamp := 3,
    clientId := none, payload := MessagePayload.empty }

/-- A concrete 200 response payload. -/
def okResponse : HttpResponsePayload :=
  { statusCode := 200, headers := [], body := "ok",
    duration := none, mapping := none }

/-- A concrete inbound response frame for request r1. -/
def responseFrame : TunnelMessage :=
  { id := "r1", type := MessageKind.response, timestamp := 9,
    clientId := none, payload := MessagePayload.response okResponse }

/-! ## Association-list lemmas -/

theorem lookup_cons (k : String) (kv : String × α) (l : List (String × α)) :
    ((kv :: l).lookup k) = if k == kv.1 then some kv.2 else l.lookup k := by
  cases kv with
  | mk a b =>
    simp only [List.lookup]
    cases h : (k == a) <;> simp [h]

theorem mapErase_cons (k : String) (kv : String × α) (tl : List (String × α)) :
    mapErase k (kv :: tl) =
      if (kv.1 != k) = true then kv :: mapErase k tl else mapErase k tl := by
  simp only [mapErase, List.filter_cons]

theorem lookup_mapErase_self (k : String) (l : List (String × α)) :
    (mapErase k l).lookup k = none := by
  induction l with
  | nil => rfl
  | cons kv tl ih =>
    by_cases h : kv.1 = k
    · have hb : (kv.1 != k) = false := by simp [h]
      simp only [mapErase, List.filter_cons, hb, Bool.false_eq_true, if_false]
      exact ih
    · have hb : (kv.1 != k) = true := by simp [h]
      have hk : (k == kv.1) = false := by simp [Ne.symm h]
      simp only [mapErase, List.filter_cons, hb, if_true]
      rw [lookup_cons]
      simp only [hk, Bool.false_eq_true, if_false]
      exact ih

theorem lookup_mapErase_ne (k k' : String) (l : List (String × α))
    (h : k' ≠ k) : (mapErase k l).lookup k' = l.lookup k' := by
  induction l with
  | nil => rfl
  | cons kv tl ih =>
    simp only [mapErase, List.filter_cons]
    by_cases hk : kv.1 = k
    · have hb : (kv.1 != k) = false := by simpa using hk
      have hk' : (k' == kv.1) = false := by
        simp [hk, h]
      simpa [hb, lookup_cons, hk', mapErase] using ih
    · have hb : (kv.1 != k) = true := by simpa using hk
      by_cases he : k' = kv.1
      · simp [hb, lookup_cons, he, mapErase]
      · have he' : (k' == kv.1) = false := by simpa using he
        simpa [hb, lookup_cons, he', mapErase] using ih

theorem mapErase_of_lookup_none (k : String) (l : List (String × α))
    (h : l.lookup k = none) : mapErase k l = l := by
  induction l with
  | nil => rfl
  | cons kv tl ih =>
    rw [lookup_cons] at h
    by_cases he : k = kv.1
    · simp [he] at h
    · have he' : (k == kv.1) = false := by simpa using he
      rw [he'] at h
      simp only [Bool.false_eq_true, if_false] at h
      have hb : (kv.1 != k) = true := by simpa using Ne.symm he
      rw [mapErase_cons, if_pos hb, ih h]

theorem lookup_mapSet_self (k : String) (v : α) (l : List (String × α)) :
    (mapSet k v l).lookup k = some v := by
  induction l with
  | nil => simp [mapSet, lookup_cons]
  | cons kv tl ih =>
    simp only [mapSet]
    by_cases h : kv.1 = k
    · simp [h, lookup_cons]
    · have hb : (kv.1 == k) = false := by simpa using h
      have hk : (k == kv.1) = false := by simpa using Ne.symm h
      simp [hb, lookup_cons, hk, ih]

theorem mem_mapSet (k : String) (v : α) (l : List (String × α))
    (kv : String × α) (h : kv ∈ mapSet k v l) : kv = (k, v) ∨ kv ∈ l := by
  induction l with
  | nil => simpa [mapSet] using h
  | cons hd tl ih =>
    simp only [mapSet] at h
    by_cases hh : hd.1 = k
    · have hb : (hd.1 == k) = true := by simpa using hh
      rw [if_pos hb] at h
      rcases List.mem_cons.mp h with h | h
      · exact Or.inl h
      · exact Or.inr (List.mem_cons_of_mem _ h)
    · have hb : (hd.1 == k) = false := by simpa using hh
      rw [if_neg (by simp [hb])] at h
      rcases List.mem_cons.mp h with h | h
      · exact Or.inr (h ▸ List.mem_cons_self _ _)
      · rcases ih h with h | h
        · exact Or.inl h
        · exact Or.inr (List.mem_cons_of_mem _ h)

theorem keys_mapSet_mem (k : String) (v : α) (l : List (String × α))
    (x : String) (h : x ∈ (mapSet k v l).map Prod.fst) :
    x ∈ l.map Prod.fst ∨ x = k := by
  rcases List.mem_map.mp h with ⟨kv, hkv, hx⟩
  rcases mem_mapSet k v l kv hkv with h1 | h1
  · exact Or.inr (by rw [← hx, h1])
  · exact Or.inl (List.mem_map.mpr ⟨kv, h1, hx⟩)

theorem keys_mapSet_nodup (k : String) (v : α) (l : List (String × α))
    (h : (l.map Prod.fst).Nodup) : ((mapSet k v l).map Prod.fst).Nodup := by
  induction l with
  | nil => simp [mapSet]
  | cons hd tl ih =>
    simp only [List.map_cons, List.nodup_cons] at h
    simp only [mapSet]
    by_cases hh : hd.1 = k
    · have hb : (hd.1 == k) = true := by simpa using hh
      rw [if_pos hb]
      simp only [List.map_cons, List.nodup_cons]
      exact ⟨by rw [← hh]; exact h.1, h.2⟩
    · have hb : (hd.1 == k) = false := by simpa using hh
      rw [if_neg (by simp [hb])]
      simp only [List.map_cons, List.nodup_cons]
      refine ⟨fun hmem => ?_, ih h.2⟩
      rcases keys_mapSet_mem k v tl hd.1 hmem with h1 | h1
      · exact h.1 h1
      · exact hh h1

theorem keys_mapErase_nodup (k : String) (l : List (String × α))
    (h : (l.map Prod.fst).Nodup) : ((mapErase k l).map Prod.fst).Nodup := by
  have hsub : (mapErase k l).Sublist l := List.filter_sublist l
  exact (hsub.map Prod.fst).nodup h

theorem mem_mapErase (k : String) (l : List (String × α)) (kv : String × α)
    (h : kv ∈ mapErase k l) : kv ∈ l :=
  List.mem_of_mem_filter h

theorem lookup_mem (k : String) (v : α) (l : List (String × α))
    (h : l.lookup k = some v) : (k, v) ∈ l := by
  induction l with
  | nil => simp [List.lookup] at h
  | cons kv tl ih =>
    rw [lookup_cons] at h
    by_cases he : k = kv.1
    · have hb : (k == kv.1) = true := by simpa using he
      rw [if_pos hb] at h
      have hv : kv.2 = v := by injection h
      have hkv : (k, v) = kv := by
        cases kv with
        | mk a b =>
          simp only [Prod.mk.injEq]
          exact ⟨he, hv.symm⟩
      rw [hkv]
      exact List.mem_cons_self _ _
    · have hb : (k == kv.1) = false := by simpa using he
      rw [if_neg (by simp [hb])] at h
      exact List.mem_cons_of_mem _ (ih h)

theorem lookup_eq_none_of_not_mem_keys (k : String) (l : List (String × α))
    (h : k ∉ l.map Prod.fst) : l.lookup k = none := by
  cases hl : l.lookup k with
  | none => rfl
  | some v => exact absurd (List.mem_map.mpr ⟨(k, v), lookup_mem k v l hl, rfl⟩) h

/-! ## Pending-request table lemmas -/

theorem rejectRequest_of_lookup_none (requestId error : String)
    (s : ManagerState) (h : s.pendingRequests.lookup requestId = none) :
    rejectRequest requestId error s = (s, []) := by
  simp [rejectRequest, h]

theorem resolveRequest_of_lookup_none (requestId : String)
    (response : HttpResponsePayload) (now : Nat) (s : ManagerState)
    (h : s.pendingRequests.lookup requestId = none) :
    resolveRequest requestId response now s = (s, []) := by
  simp [resolveRequest, h]

theorem lookup_after_resolveRequest (requestId : String)
    (response : HttpResponsePayload) (now : Nat) (s : ManagerState) :
    ((resolveRequest requestId response now s).1).pendingRequests.lookup requestId =
      none := by
  cases h : s.pendingRequests.lookup requestId with
  | none => simp [resolveRequest, h]
  | some req => simp [resolveRequest, h, lookup_mapErase_self]

theorem lookup_after_rejectRequest (requestId error : String)
    (s : ManagerState) :
    ((rejectRequest requestId error s).1).pendingRequests.lookup requestId =
      none := by
  cases h : s.pendingRequests.lookup requestId with
  | none => simp [rejectRequest, h]
  | some req => simp [rejectRequest, h, lookup_mapErase_self]

theorem resolveRequest_clients (requestId : String)
    (response : HttpResponsePayload) (now : Nat) (s : ManagerState) :
    ((resolveRequest requestId response now s).1).clients = s.clients := by
  cases h : s.pendingRequests.lookup requestId with
  | none => simp [resolveRequest, h]
  | some req => simp [resolveRequest, h]

theorem resolveRequest_pending (requestId : String)
    (response : HttpResponsePayload) (now : Nat) (s : ManagerState) :
    ((resolveRequest requestId response now s).1).pendingRequests =
      mapErase requestId s.pendingRequests := by
  cases h : s.pendingRequests.lookup requestId with
  | none => simp [resolveRequest, h, mapErase_of_lookup_none _ _ h]
  | some req => simp [resolveRequest, h]

theorem rejectAll_go (l : List (String × PendingRequest)) :
    ∀ (s : ManagerState) (acc : List Effect),
      (l.map Prod.fst).Nodup → s.pendingRequests = l →
      ((l.map Prod.fst).foldl
        (fun acc requestId =>
          let r := rejectRequest requestId "Client disconnected" acc.1
          (r.1, acc.2 ++ r.2)) (s, acc)) =
      ({ s with pendingRequests := [] },
       acc ++ l.map (fun kv => Effect.rejected kv.1 "Client disconnected")) := by
  induction l with
  | nil =>
    intro s acc _ hs
    obtain ⟨cl, pr⟩ := s
    have hpr : pr = [] := hs
    subst hpr
    simp
  | cons kv tl ih =>
    intro s acc hnd hs
    simp only [List.map_cons, List.nodup_cons] at hnd
    have hknot : kv.1 ∉ tl.map Prod.fst := hnd.1
    have hlk : s.pendingRequests.lookup kv.1 = some kv.2 := by
      rw [hs, lookup_cons]
      simp
    have herase : mapErase kv.1 s.pendingRequests = tl := by
      rw [hs, mapErase_cons]
      have hb : (kv.1 != kv.1) = false := by simp
      rw [hb]
      simp only [Bool.false_eq_true, if_false]
      exact mapErase_of_lookup_none _ _ (lookup_eq_none_of_not_mem_keys _ _ hknot)
    have hstep :
        rejectRequest kv.1 "Client disconnected" s =
          ({ s with pendingRequests := tl },
           [Effect.rejected kv.1 "Client disconnected"]) := by
      simp [rejectRequest, hlk, herase]
    simp only [List.map_cons, List.foldl_cons, hstep]
    have := ih { s with pendingRequests := tl }
      (acc ++ [Effect.rejected kv.1 "Client disconnected"]) hnd.2 rfl
    rw [this]
    simp

theorem rejectRequestsForClient_spec (clientId : String) (s : ManagerState)
    (h : (s.pendingRequests.map Prod.fst).Nodup) :
    rejectRequestsForClient clientId s =
      ({ s with pendingRequests := [] },
       s.pendingRequests.map (fun kv => Effect.rejected kv.1 "Client disconnected")) := by
  have := rejectAll_go s.pendingRequests s [] h rfl
  simpa [rejectRequestsForClient] using this

/-! ## Registry lemmas -/

theorem find_ws_of_mem (l : List (String × RegisteredClient)) (k : String)
    (c : RegisteredClient) (hpw : l.Pairwise (fun a b => a.2.ws ≠ b.2.ws))
    (hm : (k, c) ∈ l) : l.find? (fun kv => kv.2.ws == c.ws) = some (k, c) := by
  induction l with
  | nil => simp at hm
  | cons hd tl ih =>
    rcases List.pairwise_cons.mp hpw with ⟨hhd, htl⟩
    rcases List.mem_cons.mp hm with h | h
    · rw [← h]
      exact List.find?_cons_of_pos _ (by simp)
    · have hne : hd.2.ws ≠ c.ws := hhd (k, c) h
      have hfalse : ((fun kv => kv.2.ws == c.ws) hd) = false := by
        simpa using hne
      rw [List.find?_cons_of_neg _ (by simp [hfalse])]
      exact ih htl h

/-! ## Mapping resolver lemmas -/

theorem mem_insertByLen (m a : ClientMapping) (l : List ClientMapping) :
    a ∈ insertByLen m l ↔ a = m ∨ a ∈ l := by
  induction l with
  | nil => simp [insertByLen]
  | cons x xs ih =>
    simp only [insertByLen]
    by_cases h : strLen x.pfx < strLen m.pfx
    · rw [if_pos h]
      simp only [List.mem_cons]
    · rw [if_neg h]
      simp only [List.mem_cons, ih]
      tauto

theorem pairwise_insertByLen (m : ClientMapping) (l : List ClientMapping)
    (h : l.Pairwise (fun a b => strLen b.pfx ≤ strLen a.pfx)) :
    (insertByLen m l).Pairwise (fun a b => strLen b.pfx ≤ strLen a.pfx) := by
  induction l with
  | nil => simp [insertByLen]
  | cons x xs ih =>
    rcases List.pairwise_cons.mp h with ⟨hx, hxs⟩
    simp only [insertByLen]
    by_cases hlt : strLen x.pfx < strLen m.pfx
    · rw [if_pos hlt]
      refine List.pairwise_cons.mpr ⟨?_, h⟩
      intro b hb
      rcases List.mem_cons.mp hb with hb | hb
      · exact hb ▸ Nat.le_of_lt hlt
      · exact Nat.le_trans (hx b hb) (Nat.le_of_lt hlt)
    · rw [if_neg hlt]
      refine List.pairwise_cons.mpr ⟨?_, ih hxs⟩
      intro b hb
      rcases (mem_insertByLen m b xs).mp hb with hb | hb
      · exact hb ▸ Nat.le_of_not_lt hlt
      · exact hx b hb

theorem mem_sortByLenDesc_go (l : List ClientMapping) :
    ∀ (acc : List ClientMapping) (a : ClientMapping),
      a ∈ l.foldl (fun acc m => insertByLen m acc) acc ↔ a ∈ acc ∨ a ∈ l := by
  induction l with
  | nil => simp
  | cons x xs ih =>
    intro acc a
    simp only [List.foldl_cons]
    rw [ih (insertByLen x acc) a, mem_insertByLen]
    simp
    tauto

theorem mem_sortByLenDesc (l : List ClientMapping) (a : ClientMapping) :
    a ∈ sortByLenDesc l ↔ a ∈ l := by
  rw [sortByLenDesc, mem_sortByLenDesc_go]
  simp

theorem pairwise_sortByLenDesc_go (l : List ClientMapping) :
    ∀ (acc : List ClientMapping),
      acc.Pairwise (fun a b => strLen b.pfx ≤ strLen a.pfx) →
      (l.foldl (fun acc m => insertByLen m acc) acc).Pairwise
        (fun a b => strLen b.pfx ≤ strLen a.pfx) := by
  induction l with
  | nil => intro acc h; simpa using h
  | cons x xs ih =>
    intro acc h
    simp only [List.foldl_cons]
    exact ih (insertByLen x acc) (pairwise_insertByLen x acc h)

theorem pairwise_sortByLenDesc (l : List ClientMapping) :
    (sortByLenDesc l).Pairwise (fun a b => strLen b.pfx ≤ strLen a.pfx) :=
  pairwise_sortByLenDesc_go l [] (by simp)

theorem findBestMapping_spec (path : String) (mappings : List ClientMapping) :
    (∀ m, findBestMapping path mappings = some m →
      m ∈ mappings ∧ matchesMapping (cleanLeadingSlash path) m = true ∧
      ∀ m' ∈ mappings, matchesMapping (cleanLeadingSlash path) m' = true →
        strLen m'.pfx ≤ strLen m.pfx) ∧
    (findBestMapping path mappings = none →
      ∀ m' ∈ mappings, matchesMapping (cleanLeadingSlash path) m' = false) := by
  have hpw := pairwise_sortByLenDesc (mappings.filter
      (fun m => matchesMapping (cleanLeadingSlash path) m))
  constructor
  · intro m hm
    have hhead :
        (sortByLenDesc (mappings.filter
          (fun m => matchesMapping (cleanLeadingSlash path) m))).head? = some m := hm
    cases hl : sortByLenDesc (mappings.filter
        (fun m => matchesMapping (cleanLeadingSlash path) m)) with
    | nil => rw [hl] at hhead; simp at hhead
    | cons a rest =>
      rw [hl] at hhead
      have ham : a = m := by simpa using hhead
      subst ham
      have hmem : a ∈ sortByLenDesc (mappings.filter
          (fun m => matchesMapping (cleanLeadingSlash path) m)) := by
        rw [hl]; exact List.mem_cons_self _ _
      have hmf := (mem_sortByLenDesc _ a).mp hmem
      have hmm := List.mem_filter.mp hmf
      refine ⟨hmm.1, by simpa using hmm.2, ?_⟩
      intro m' hm' hmatch
      have hm'f : m' ∈ mappings.filter
          (fun m => matchesMapping (cleanLeadingSlash path) m) :=
        List.mem_filter.mpr ⟨hm', by simpa using hmatch⟩
      have hm's := (mem_sortByLenDesc _ m').mpr hm'f
      rw [hl] at hm's hpw
      rcases List.mem_cons.mp hm's with h | h
      · exact h ▸ Nat.le_refl _
      · exact (List.pairwise_cons.mp hpw).1 m' h
  · intro hnone m' hm'
    by_contra hmatch
    have hb : matchesMapping (cleanLeadingSlash path) m' = true := by
      cases h : matchesMapping (cleanLeadingSlash path) m'
      · exact absurd h hmatch
      · rfl
    have hm'f : m' ∈ mappings.filter
        (fun m => matchesMapping (cleanLeadingSlash path) m) :=
      List.mem_filter.mpr ⟨hm', by simpa using hb⟩
    have hm's := (mem_sortByLenDesc _ m').mpr hm'f
    have hhead :
        (sortByLenDesc (mappings.filter
          (fun m => matchesMapping (cleanLeadingSlash path) m))).head? = none := hnone
    cases hl : sortByLenDesc (mappings.filter
        (fun m => matchesMapping (cleanLeadingSlash path) m)) with
    | nil => rw [hl] at hm's; simp at hm's
    | cons a rest => rw [hl] at hhead; simp at hhead

/-! ## Claim theorems -/

/-- C1: evaluating the source at a two-agent state refutes per-agent
scoping of disconnect rejection. Agents a (socket 1) and b (socket 2)
each have one pending request (r1 dispatched to a, r2 to b). When the
link of a is unregistered, the source also rejects r2 with a Client
disconnected error and leaves the pending table empty, although agent b
is still registered; the claim requires r2 to stay in the table
unchanged. This contradicts the call-site comment of the source, which
announces rejecting the requests for this client only, and the
specification mandates per-agent scoping, so the code is the defect. -/
theorem c1_unregister_rejects_unrelated :
    (unregisterClient 1 twoAgentState).1.pendingRequests = [] ∧
    Effect.rejected "r2" "Client disconnected" ∈ (unregisterClient 1 twoAgentState).2 ∧
    (unregisterClient 1 twoAgentState).1.clients.lookup "b" ≠ none := by
  decide

/-- C2 counterexample: re-registering id a5 on socket 2 displaces the old
record on socket 1 and fails its pending request, but the effect list
contains rejections only and no close of socket 1: the relay never calls
close on the displaced link, refuting the claim conjunct that the old
record link is closed. -/
theorem c2_counterexample_no_close :
    (registerClient "a5" 2 (some "New") [] 10 oneAgentState).2.2 =
      [Effect.rejected "r1" "Client disconnected"] ∧
    Effect.closeLink 1 ∉ (registerClient "a5" 2 (some "New") [] 10 oneAgentState).2.2 := by
  decide

/-- C2 (amended): at most one agent record per id is connected at any
time, and registering an id that already has a connected record displaces
it: afterwards the id maps to a fresh record with connected true,
last heartbeat now, request count 0 and the new socket; the pending
requests are failed with a Client disconnected error (the source fails
the whole table, which includes those of the old record); no close is
issued on the old link; and key uniqueness and the every-stored-record-
is-connected invariant are preserved. -/
theorem c2_register_displaces (clientId : String) (ws : Nat)
    (name : Option String) (mappings : List ClientMapping) (now : Nat)
    (s : ManagerState) (old : RegisteredClient) (hwf : WellFormed s)
    (hold : s.clients.lookup clientId = some old) :
    (registerClient clientId ws name mappings now s).1.clients.lookup clientId =
      some (registerClient clientId ws name mappings now s).2.1 ∧
    (registerClient clientId ws name mappings now s).2.1.connected = true ∧
    (registerClient clientId ws name mappings now s).2.1.lastHeartbeat = now ∧
    (registerClient clientId ws name mappings now s).2.1.requestCount = 0 ∧
    (registerClient clientId ws name mappings now s).2.1.ws = ws ∧
    (registerClient clientId ws name mappings now s).1.pendingRequests = [] ∧
    (registerClient clientId ws name mappings now s).2.2 =
      s.pendingRequests.map (fun kv => Effect.rejected kv.1 "Client disconnected") ∧
    (∀ w, Effect.closeLink w ∉ (registerClient clientId ws name mappings now s).2.2) ∧
    ((registerClient clientId ws name mappings now s).1.clients.map Prod.fst).Nodup ∧
    (∀ kv ∈ (registerClient clientId ws name mappings now s).1.clients,
      kv.2.connected = true) := by
  obtain ⟨hkeys, hws, hpend, hconn⟩ := hwf
  have hmem := lookup_mem clientId old s.clients hold
  have hfind := find_ws_of_mem s.clients clientId old hws hmem
  have hunreg : unregisterClient old.ws s =
      ({ clients := mapErase clientId s.clients, pendingRequests := [] },
       s.pendingRequests.map (fun kv => Effect.rejected kv.1 "Client disconnected")) := by
    unfold unregisterClient
    rw [hfind]
    exact rejectRequestsForClient_spec clientId
      { s with clients := mapErase clientId s.clients } hpend
  have hreg : registerClient clientId ws name mappings now s =
      ({ clients :=
           mapSet clientId
             { id := clientId, name := defaultClientName clientId name,
               connected := true, lastHeartbeat := now, requestCount := 0,
               mappings := mappings, ws := ws }
             (mapErase clientId s.clients),
         pendingRequests := [] },
       { id := clientId, name := defaultClientName clientId name,
         connected := true, lastHeartbeat := now, requestCount := 0,
         mappings := mappings, ws := ws },
       s.pendingRequests.map (fun kv => Effect.rejected kv.1 "Client disconnected")) := by
    simp only [registerClient, hold, hunreg]
  rw [hreg]
  refine ⟨lookup_mapSet_self _ _ _, rfl, rfl, rfl, rfl, rfl, rfl, ?_, ?_, ?_⟩
  · intro w hw
    rcases List.mem_map.mp hw with ⟨kv, _, heq⟩
    simp at heq
  · exact keys_mapSet_nodup _ _ _ (keys_mapErase_nodup _ _ hkeys)
  · intro kv hkv
    rcases mem_mapSet _ _ _ kv hkv with h | h
    · rw [h]
    · exact hconn kv (mem_mapErase _ _ _ h)

/-- C2 witness: the displacement theorem applied to the concrete
one-agent state, with the well-formedness and presence hypotheses
discharged by evaluation. -/
theorem c2_register_displaces_witness :
    WellFormed oneAgentState ∧
    (registerClient "a5" 2 (some "New") [] 10 oneAgentState).1.pendingRequests = [] :=
  ⟨by decide,
   (c2_register_displaces "a5" 2 (some "New") [] 10 oneAgentState
      { id := "a5", name := "First", connected := true, lastHeartbeat := 3,
        requestCount := 1, mappings := [], ws := 1 }
      (by decide) (by decide)).2.2.2.2.2.1⟩

/-- C3 counterexample: prefix api against path /apifoo. Under the
segment-boundary rule the path matches no mapping and must go to the
default target with the path unchanged, but the source resolver picks the
api mapping (the bare startsWith disjunct of its filter matches without a
boundary) and rewrites the path to /foo. -/
theorem c3_counterexample_segment_boundary :
    resolveRoute "/apifoo" [apiMapping] = (some apiMapping, "/foo") ∧
    specResolveRoute "/apifoo" [apiMapping] = (none, "/apifoo") ∧
    resolveRoute "/apifoo" [apiMapping] ≠ specResolveRoute "/apifoo" [apiMapping] := by
  decide

/-- C3 (amended): for every mapping list and path, the resolver picks a
mapping satisfying the source filter condition on the path after the
leading-slash strip (equality, pfx plus slash, or a bare string-prefix
match with no segment-boundary requirement) whose pfx length is maximal
among the satisfying mappings, and rewrites the path by stripping that
pfx; if no mapping satisfies the condition, none is chosen and the path
is forwarded unchanged. -/
theorem c3_longest_plain_match (path : String) (mappings : List ClientMapping) :
    (∀ m targetPath, resolveRoute path mappings = (some m, targetPath) →
      m ∈ mappings ∧ matchesMapping (cleanLeadingSlash path) m = true ∧
      (∀ m' ∈ mappings, matchesMapping (cleanLeadingSlash path) m' = true →
        strLen m'.pfx ≤ strLen m.pfx) ∧
      targetPath = stripMappingPrefix path m.pfx) ∧
    (∀ targetPath, resolveRoute path mappings = (none, targetPath) →
      (∀ m' ∈ mappings, matchesMapping (cleanLeadingSlash path) m' = false) ∧
      targetPath = path) := by
  have hspec := findBestMapping_spec path mappings
  constructor
  · intro m targetPath hr
    unfold resolveRoute at hr
    cases hf : findBestMapping path mappings with
    | none => rw [hf] at hr; simp at hr
    | some m0 =>
      rw [hf] at hr
      simp only [Prod.mk.injEq, Option.some.injEq] at hr
      obtain ⟨hm0, ht⟩ := hr
      subst hm0
      rcases hspec.1 m0 hf with ⟨h1, h2, h3⟩
      exact ⟨h1, h2, h3, ht.symm⟩
  · intro targetPath hr
    unfold resolveRoute at hr
    cases hf : findBestMapping path mappings with
    | some m0 => rw [hf] at hr; simp at hr
    | none =>
      rw [hf] at hr
      simp only [Prod.mk.injEq] at hr
      exact ⟨hspec.2 hf, hr.2.symm⟩

/-- C3 witness: the amended resolver theorem applied at the path
/api/v1/x against the single api mapping. -/
theorem c3_longest_plain_match_witness :
    resolveRoute "/api/v1/x" [apiMapping] = (some apiMapping, "/v1/x") ∧
    apiMapping ∈ [apiMapping] ∧
    "/v1/x" = stripMappingPrefix "/api/v1/x" apiMapping.pfx :=
  ⟨by decide,
   ((c3_longest_plain_match "/api/v1/x" [apiMapping]).1 apiMapping "/v1/x"
      (by decide)).1,
   ((c3_longest_plain_match "/api/v1/x" [apiMapping]).1 apiMapping "/v1/x"
      (by decide)).2.2.2⟩

/-- C4: a pending request has at most one terminal outcome: after a
resolveRequest or rejectRequest call for a request id (which removes the
entry when present, whatever triggered it: a response frame, an error
frame, the deadline timer firing rejectRequest, or the disconnect path),
any later resolveRequest or rejectRequest with the same id returns the
state unchanged and signals nothing. -/
theorem c4_terminal_once (requestId : String)
    (resp resp' resp'' : HttpResponsePayload) (err err' err'' : String)
    (now now' now'' : Nat) (s : ManagerState) :
    (resolveRequest requestId resp' now' (resolveRequest requestId resp now s).1 =
       ((resolveRequest requestId resp now s).1, []) ∧
     rejectRequest requestId err (resolveRequest requestId resp now s).1 =
       ((resolveRequest requestId resp now s).1, [])) ∧
    (resolveRequest requestId resp'' now'' (rejectRequest requestId err' s).1 =
       ((rejectRequest requestId err' s).1, []) ∧
     rejectRequest requestId err'' (rejectRequest requestId err' s).1 =
       ((rejectRequest requestId err' s).1, [])) := by
  refine ⟨⟨?_, ?_⟩, ?_, ?_⟩
  · exact resolveRequest_of_lookup_none _ _ _ _ (lookup_after_resolveRequest _ _ _ _)
  · exact rejectRequest_of_lookup_none _ _ _ (lookup_after_resolveRequest _ _ _ _)
  · exact resolveRequest_of_lookup_none _ _ _ _ (lookup_after_rejectRequest _ _ _)
  · exact rejectRequest_of_lookup_none _ _ _ (lookup_after_rejectRequest _ _ _)

/-- C4 witness: after request r1 is resolved, a later timeout-style
rejection of r1 is a no-op on the concrete two-agent state. -/
theorem c4_terminal_once_witness :
    rejectRequest "r1" "Request timeout"
        (resolveRequest "r1" okResponse 9 twoAgentState).1 =
      ((resolveRequest "r1" okResponse 9 twoAgentState).1, []) :=
  (c4_terminal_once "r1" okResponse okResponse okResponse "Request timeout"
    "Client disconnected" "Request timeout" 9 10 11 twoAgentState).1.2

/-- C5: a header entry is present in the request frame the dispatcher
forwards to the agent exactly when it came from the inbound headers and
its lower-cased name is not on the deny list (host, connection, upgrade,
sec-websocket-key, sec-websocket-version, sec-websocket-extensions,
x-forwarded-for, x-forwarded-proto, x-forwarded-host); kept entries carry
their original key and value. -/
theorem c5_dispatch_sanitation (method path : String)
    (headers : List (String × String)) (body : Option String)
    (query : List (String × String)) (targetMapping : Option String)
    (k v : String) :
    (k, v) ∈ (buildRequestPayload method path headers body query targetMapping).headers ↔
      ((k, v) ∈ headers ∧ strToLower k ∉ serverSkipHeaders) := by
  simp only [buildRequestPayload, serverSanitizeHeaders, List.mem_filter]
  constructor
  · rintro ⟨h1, h2⟩
    refine ⟨h1, ?_⟩
    simpa using h2
  · rintro ⟨h1, h2⟩
    refine ⟨h1, ?_⟩
    simpa using h2

/-- C5 witness: at a concrete header map the Host entry is dropped from
the forwarded frame and the X-A entry is kept with its value. -/
theorem c5_dispatch_sanitation_witness :
    ("X-A", "1") ∈ (buildRequestPayload "GET" "/p"
        [("Host", "h"), ("X-A", "1")] none [] none).headers ∧
    ("Host", "h") ∉ (buildRequestPayload "GET" "/p"
        [("Host", "h"), ("X-A", "1")] none [] none).headers :=
  ⟨(c5_dispatch_sanitation "GET" "/p" [("Host", "h"), ("X-A", "1")] none [] none
      "X-A" "1").mpr ⟨by decide, by decide⟩,
   fun h =>
     absurd ((c5_dispatch_sanitation "GET" "/p" [("Host", "h"), ("X-A", "1")]
       none [] none "Host" "h").mp h).2 (by decide)⟩

/-- C6: on local egress failure (timeout abort or transport error)
makeRequest returns, rather than throws, a synthesized response with
status 503, a content-type header of application/json, and the JSON body
with error Service Unavailable, the failure detail as message and code
HTTP_REQUEST_FAILED; consequently the installed request handler answers
with a frame of kind response carrying that payload, never an error
frame. -/
theorem c6_failure_synthesized_response (payload : HttpRequestPayload)
    (message : String) (requestId : String) (now duration : Nat) :
    makeRequest payload (FetchOutcome.failure message) =
      { statusCode := 503,
        headers := [("content-type", "application/json")],
        body := errorResponseBody message,
        duration := none, mapping := none } ∧
    (agentAnswerFrame requestId payload (FetchOutcome.failure message) now duration).type =
      MessageKind.response ∧
    (agentAnswerFrame requestId payload (FetchOutcome.failure message) now duration).payload =
      MessagePayload.response
        { statusCode := 503,
          headers := [("content-type", "application/json")],
          body := errorResponseBody message,
          duration := some duration, mapping := none } :=
  ⟨rfl, rfl, rfl⟩

/-- C6 witness: the synthesized-failure theorem at a concrete failure,
together with the concrete JSON body it produces. -/
theorem c6_failure_synthesized_response_witness :
    (agentAnswerFrame "q1" emptyBodyPost
        (FetchOutcome.failure "boom") 5 7).type = MessageKind.response ∧
    errorResponseBody "boom" =
      "\x7b\"error\":\"Service Unavailable\",\"message\":\"boom\",\"code\":\"HTTP_REQUEST_FAILED\"\x7d" :=
  ⟨(c6_failure_synthesized_response emptyBodyPost "boom" "q1" 5 7).2.1,
   by decide⟩

/-- C7 counterexample: a POST payload carrying the empty-string body. The
claim requires the body string to be forwarded unchanged for non
GET/HEAD/DELETE methods, but the falsy-body early return of the source
sends no body at all. -/
theorem c7_counterexample_empty_body :
    emptyBodyPost.body = some "" ∧
    strToUpper emptyBodyPost.method = "POST" ∧
    prepareBody emptyBodyPost = none ∧
    prepareBody emptyBodyPost ≠ emptyBodyPost.body := by
  decide

/-- C7 (amended): if the upper-cased method is GET, HEAD or DELETE, no
body is sent to the local target even when the payload carries one; an
absent or empty-string body is also sent as no body whatever the method;
for every other method a nonempty body string is forwarded unchanged. -/
theorem c7_body_drop (payload : HttpRequestPayload) :
    ((strToUpper payload.method = "GET" ∨ strToUpper payload.method = "HEAD" ∨
        strToUpper payload.method = "DELETE") → prepareBody payload = none) ∧
    (payload.body = none → prepareBody payload = none) ∧
    (payload.body = some "" → prepareBody payload = none) ∧
    (∀ b, payload.body = some b → b ≠ "" →
      strToUpper payload.method ≠ "GET" → strToUpper payload.method ≠ "HEAD" →
      strToUpper payload.method ≠ "DELETE" → prepareBody payload = some b) := by
  refine ⟨?_, ?_, ?_, ?_⟩
  · intro h
    unfold prepareBody
    cases hb : payload.body with
    | none => rfl
    | some b =>
      by_cases hbe : b = ""
      · simp [hbe]
      · have hbe' : (b == "") = false := by simpa using hbe
        have hcond : (strToUpper payload.method == "GET" ||
            strToUpper payload.method == "HEAD" ||
            strToUpper payload.method == "DELETE") = true := by
          rcases h with h | h | h <;> simp [h]
        simp [hbe', hcond]
  · intro h
    unfold prepareBody
    rw [h]
  · intro h
    unfold prepareBody
    rw [h]
    simp
  · intro b hb hbe hg hh hd
    unfold prepareBody
    rw [hb]
    have hbe' : (b == "") = false := by simpa using hbe
    have hcond : (strToUpper payload.method == "GET" ||
        strToUpper payload.method == "HEAD" ||
        strToUpper payload.method == "DELETE") = false := by
      simp [hg, hh, hd]
    simp [hbe', hcond]

/-- C7 witness: the body-drop theorem at concrete payloads: a lower-case
get payload with a body sends none, a POST payload forwards its body. -/
theorem c7_body_drop_witness :
    prepareBody getLowerPayload = none ∧
    prepareBody postBodyPayload = some "x" :=
  ⟨(c7_body_drop getLowerPayload).1 (Or.inl (by decide)),
   (c7_body_drop postBodyPayload).2.2.2 "x" rfl
     (by decide) (by decide) (by decide) (by decide)⟩

/-- C8 counterexample: at a concrete inbound heartbeat frame the agent
reply echoes the id but its kind is heartbeat, not pong, refuting the
claim that the agent answers with a pong frame. -/
theorem c8_counterexample_not_pong :
    (clientHandleHeartbeat exampleConfig heartbeatFrame 7).id = heartbeatFrame.id ∧
    (clientHandleHeartbeat exampleConfig heartbeatFrame 7).type = MessageKind.heartbeat ∧
    (clientHandleHeartbeat exampleConfig heartbeatFrame 7).type ≠ MessageKind.pong := by
  decide

/-- C8 (amended): while the agent link is open, every inbound heartbeat
frame is answered with a frame of kind heartbeat echoing the received id
and carrying the agent clientId; the pong kind is what the relay sends
back for heartbeats it receives. -/
theorem c8_heartbeat_echo (cfg : ClientConfig) (wsOpen : Bool)
    (message : TunnelMessage) (now : Nat) (ws : Nat) (s : ManagerState)
    (h : wsOpen = true) :
    clientHeartbeatReply cfg wsOpen message now =
      some { id := message.id, type := MessageKind.heartbeat, timestamp := now,
             clientId := some cfg.clientId, payload := MessagePayload.empty } ∧
    (serverHandleHeartbeat ws message now s).2 =
      [Effect.send ws
        { id := message.id, type := MessageKind.pong, timestamp := now,
          clientId := none, payload := MessagePayload.empty }] := by
  subst h
  exact ⟨rfl, rfl⟩

/-- C8 witness: the heartbeat echo theorem at the concrete frame h1 on an
open link. -/
theorem c8_heartbeat_echo_witness :
    clientHeartbeatReply exampleConfig true heartbeatFrame 7 =
      some { id := "h1", type := MessageKind.heartbeat, timestamp := 7,
             clientId := some "c1", payload := MessagePayload.empty } :=
  (c8_heartbeat_echo exampleConfig true heartbeatFrame 7 0 twoAgentState rfl).1

/-- C9: in both sanitizers an entry is kept, under its original key
spelling and value, exactly when its lower-cased key is off the
respective deny list; in particular a header whose name equals a
deny-listed name in any letter case is dropped. -/
theorem c9_case_insensitive_sanitizers (headers : List (String × String))
    (k v : String) :
    ((k, v) ∈ serverSanitizeHeaders headers ↔
      ((k, v) ∈ headers ∧ strToLower k ∉ serverSkipHeaders)) ∧
    ((k, v) ∈ clientSanitizeHeaders headers ↔
      ((k, v) ∈ headers ∧ strToLower k ∉ clientSkipHeaders)) := by
  constructor
  · simp only [serverSanitizeHeaders, List.mem_filter]
    constructor
    · rintro ⟨h1, h2⟩
      exact ⟨h1, by simpa using h2⟩
    · rintro ⟨h1, h2⟩
      exact ⟨h1, by simpa using h2⟩
  · simp only [clientSanitizeHeaders, List.mem_filter]
    constructor
    · rintro ⟨h1, h2⟩
      exact ⟨h1, by simpa using h2⟩
    · rintro ⟨h1, h2⟩
      exact ⟨h1, by simpa using h2⟩

/-- C9 witness: CONNECTION in capitals is dropped by the relay sanitizer
and X-A is kept by the agent sanitizer with its original spelling. -/
theorem c9_case_insensitive_sanitizers_witness :
    ("CONNECTION", "x") ∉ serverSanitizeHeaders [("CONNECTION", "x"), ("X-A", "1")] ∧
    ("X-A", "1") ∈ clientSanitizeHeaders [("CONNECTION", "x"), ("X-A", "1")] :=
  ⟨fun h =>
     absurd ((c9_case_insensitive_sanitizers [("CONNECTION", "x"), ("X-A", "1")]
       "CONNECTION" "x").1.mp h).2 (by decide),
   (c9_case_insensitive_sanitizers [("CONNECTION", "x"), ("X-A", "1")]
     "X-A" "1").2.mpr ⟨by decide, by decide⟩⟩

/-- C10: a response frame is matched to a pending request by id alone:
handling it does not depend on which socket it arrived on or on any fresh
identifiers, it leaves the client registry untouched, it removes exactly
the pending entry keyed by the frame id, and it resolves that entry with
the frame payload (stamped with the measured duration) when present and
does nothing when absent. -/
theorem c10_response_by_id_only (ws ws' : Nat) (message : TunnelMessage)
    (fresh freshMsgId fresh' freshMsgId' : String) (now : Nat)
    (s : ManagerState) (h : message.type = MessageKind.response) :
    serverHandleMessage ws message fresh freshMsgId now s =
      serverHandleMessage ws' message fresh' freshMsgId' now s ∧
    (serverHandleMessage ws message fresh freshMsgId now s).1.clients = s.clients ∧
    (serverHandleMessage ws message fresh freshMsgId now s).1.pendingRequests =
      mapErase message.id s.pendingRequests ∧
    (∀ req, s.pendingRequests.lookup message.id = some req →
      (serverHandleMessage ws message fresh freshMsgId now s).2 =
        [Effect.resolved message.id
          { asResponsePayload message.payload with
              duration := some (now - req.timestamp) }]) ∧
    (s.pendingRequests.lookup message.id = none →
      (serverHandleMessage ws message fresh freshMsgId now s).2 = []) := by
  have hdis : ∀ (w : Nat) (f g : String),
      serverHandleMessage w message f g now s = handleResponse message now s := by
    intro w f g
    simp [serverHandleMessage, h]
  refine ⟨by rw [hdis, hdis], ?_, ?_, ?_, ?_⟩
  · rw [hdis]
    exact resolveRequest_clients _ _ _ _
  · rw [hdis]
    exact resolveRequest_pending _ _ _ _
  · intro req hreq
    rw [hdis]
    simp [handleResponse, resolveRequest, hreq]
  · intro hnone
    rw [hdis]
    simp [handleResponse, resolveRequest, hnone]

/-- C10 witness: the concrete response frame for r1 is handled the same
on socket 1 and on socket 2 of the two-agent state. -/
theorem c10_response_by_id_only_witness :
    responseFrame.type = MessageKind.response ∧
    serverHandleMessage 1 responseFrame "f" "g" 9 twoAgentState =
      serverHandleMessage 2 responseFrame "x" "y" 9 twoAgentState :=
  ⟨rfl,
   (c10_response_by_id_only 1 2 responseFrame "f" "g" "x" "y" 9 twoAgentState
     rfl).1⟩

end WsTunnel
